import Mathlib

/-!
Verification of the Shippy vessel/weather join pipeline.

Shallow embedding of the repository's data model and operations:

* `ingest_functions.py` — haversine distance `_dist`, nearest-station
  lookup `find_nearest_station` (pandas `Series.idxmin`: first index of
  the minimum), and station assignment
  (`raw_messages_and_nearest_station_to_df`).
* `calculator_functions.py` — the temporal merge
  `_merge_raw_messages_weather` (pandas `merge_asof` with
  `direction='nearest'`, `by=['s_lat','s_lon']`, `tolerance='1H'`) and
  the four KPI queries.

Conventions of the embedding:

* timestamps are `ℤ` (seconds, timezone-naive UTC — the repo parses the
  raw `datetime` column with `unit='s'`);
* coordinate and speed columns are `ℚ` (every 3-decimal-rounded float in
  the tables is an exact rational; the joins compare them for equality
  only), while the haversine computation itself is over `ℝ`;
* a missing weather match (pandas `NaN` row) is `Option.none`;
* a raised exception (pandas `ValueError` from `idxmin` on an empty
  table) is `Option.none` at the function's result type;
* pandas label slicing `.loc[date : date + DateOffset(1)]` is inclusive
  of BOTH endpoints, so the window filters below use `≤` on both sides;
* `pd.merge_asof(..., direction='nearest', tolerance=tol)` is embedded
  by its documented/implemented semantics: per left row, the backward
  candidate is the last right row (in sorted order) with timestamp ≤ the
  left timestamp, the forward candidate is the first right row with
  timestamp ≥ the left timestamp, each is dropped when farther than
  `tol` (inclusive comparison), and on a distance tie the backward
  (earlier) candidate wins (`bdiff <= fdiff` in pandas `join.pyx`).
-/

namespace Shippy

/-- A row of the weather-station table (`weather_data_json_to_df`):
`station_id` plus rounded coordinates `s_lat`, `s_lon`. -/
structure Station where
  station_id : String
  s_lat : ℚ
  s_lon : ℚ
  deriving DecidableEq

/-- A row of the raw-messages table (`raw_messages_csv_to_df`), keyed by
`(device_id, datetime)`, with the expanded numeric fields the KPI
queries use. -/
structure RawMsg where
  device_id : String
  datetime : ℤ
  lat : ℚ
  lon : ℚ
  spd_over_grnd : ℚ
  deriving DecidableEq

/-- A raw message with the nearest station's coordinates attached
(a row of `raw_messages_stations`). -/
structure StMsg where
  msg : RawMsg
  s_lat : ℚ
  s_lon : ℚ
  deriving DecidableEq

/-- A row of the normalized weather table
(`weather_data_json_normalized_to_df`), keyed by `timestamp_utc`, with
the denormalized station coordinates and the weather fields used by the
KPI queries. -/
structure WObs where
  timestamp_utc : ℤ
  s_lat : ℚ
  s_lon : ℚ
  wind_spd : ℚ
  temp : ℚ
  deriving DecidableEq

/-! ### Geospatial part (`ingest_functions.py`) -/

/-- `math.radians`: degrees to radians. -/
noncomputable def rad (x : ℚ) : ℝ := (x : ℝ) * Real.pi / 180

/-- The haversine intermediate
`a = sin²(Δlat/2) + cos(lat1)·cos(lat2)·sin²(Δlon/2)` of `_dist`. -/
noncomputable def haversineA (lat1 long1 lat2 long2 : ℚ) : ℝ :=
  Real.sin ((rad lat2 - rad lat1) / 2) ^ 2 +
    Real.cos (rad lat1) * Real.cos (rad lat2) *
      Real.sin ((rad long2 - rad long1) / 2) ^ 2

/-- `_dist`: haversine great-circle distance in km,
`km = 6371 * (2 * asin(sqrt(a)))`. -/
noncomputable def _dist (lat1 long1 lat2 long2 : ℚ) : ℝ :=
  6371 * (2 * Real.arcsin (Real.sqrt (haversineA lat1 long1 lat2 long2)))

/-- `Series.idxmin` together with the value at that index: the first
position of the minimum of the list, `none` on an empty list (where
pandas raises `ValueError`). -/
noncomputable def idxminVal : List ℝ → Option (ℕ × ℝ)
  | [] => none
  | v :: rest =>
    match idxminVal rest with
    | none => some (0, v)
    | some (j, bv) => if bv < v then some (j + 1, bv) else some (0, v)

/-- Distance from a query point to one station row, as computed by the
`weather_stations.apply` lambda inside `find_nearest_station`. -/
noncomputable def stationDist (lat long : ℚ) (s : Station) : ℝ :=
  _dist lat long s.s_lat s.s_lon

/-- `find_nearest_station`: distances to every station, `idxmin`, then
`weather_stations.loc[...]` for that row; `none` models the
`ValueError` pandas raises when the station table is empty. -/
noncomputable def find_nearest_station (stations : List Station) (lat long : ℚ) :
    Option Station :=
  match idxminVal (stations.map (stationDist lat long)) with
  | none => none
  | some (j, _) => stations[j]?

/-- `raw_messages_and_nearest_station_to_df` (station-assignment part):
each report row gets the nearest station's `(s_lat, s_lon)` attached;
an error for any row (empty station table) fails the whole frame. -/
noncomputable def assignStations : List RawMsg → List Station → Option (List StMsg)
  | [], _ => some []
  | m :: ms, stations =>
    match find_nearest_station stations m.lat m.lon, assignStations ms stations with
    | some s, some rest => some (⟨m, s.s_lat, s.s_lon⟩ :: rest)
    | _, _ => none

/-! ### Temporal merge (`_merge_raw_messages_weather`) -/

/-- The `by=['s_lat','s_lon']` join key of `merge_asof`: exact equality
of the observation's station coordinates with the report's assigned
station coordinates. -/
def matchKey (r : StMsg) (o : WObs) : Bool :=
  decide (o.s_lat = r.s_lat) && decide (o.s_lon = r.s_lon)

/-- Tolerance check of `merge_asof`: a candidate farther than `tol`
seconds from the report timestamp `t` is discarded (the comparison in
pandas is inclusive: distance ≤ tolerance is kept). -/
def tolOk (t tol : ℤ) : Option WObs → Option WObs
  | none => none
  | some o => if |o.timestamp_utc - t| ≤ tol then some o else none

/-- Backward candidate of `merge_asof`: the last observation (in sorted
order) with matching station key and timestamp ≤ the report's. -/
def backward (obs : List WObs) (r : StMsg) : Option WObs :=
  (obs.filter fun o => matchKey r o && decide (o.timestamp_utc ≤ r.msg.datetime)).getLast?

/-- Forward candidate of `merge_asof`: the first observation (in sorted
order) with matching station key and timestamp ≥ the report's. -/
def forward (obs : List WObs) (r : StMsg) : Option WObs :=
  (obs.filter fun o => matchKey r o && decide (r.msg.datetime ≤ o.timestamp_utc)).head?

/-- `merge_asof` with `direction='nearest'` for one left row: both
candidates are tolerance-filtered and the nearer one is taken, the
backward (earlier) one on a tie. -/
def selectNearest (obs : List WObs) (r : StMsg) (tol : ℤ) : Option WObs :=
  match tolOk r.msg.datetime tol (backward obs r), tolOk r.msg.datetime tol (forward obs r) with
  | some b, some f =>
      if r.msg.datetime - b.timestamp_utc ≤ f.timestamp_utc - r.msg.datetime
      then some b else some f
  | some b, none => some b
  | none, f => f

/-- The left side of the merge:
`raw_messages_stations.xs(device_id).loc[date : date + DateOffset(1)]`.
Label slicing keeps rows with `date ≤ datetime ≤ date + 1 day`
(both endpoints inclusive). -/
def filterWindow (msgs : List StMsg) (dev : String) (d : ℤ) : List StMsg :=
  msgs.filter fun m =>
    decide (m.msg.device_id = dev) && decide (d ≤ m.msg.datetime) &&
      decide (m.msg.datetime ≤ d + 86400)

/-- `_merge_raw_messages_weather`: one output row per in-window report of
the requested device, carrying the nearest-in-time tolerance-bounded
observation when one exists. -/
def _merge_raw_messages_weather (msgs : List StMsg) (obs : List WObs) (dev : String) (d : ℤ) :
    List (StMsg × Option WObs) :=
  (filterWindow msgs dev d).map fun m => (m, selectNearest obs m 3600)

/-! ### KPI queries (`calculator_functions.py`) -/

/-- `num_ships_in_data`: the number of distinct `device_id` values in the
table's index. -/
def num_ships_in_data (msgs : List StMsg) : ℕ :=
  ((msgs.map fun m => m.msg.device_id).dedup).length

/-- `pd.Grouper(freq='1H')`: a timestamp truncated (floored) to the start
of its hour. -/
def hourBucket (t : ℤ) : ℤ := 3600 * Int.fdiv t 3600

/-- The date filter of `avg_speeds_for_date`:
`.loc[pd.IndexSlice[:, date : date + pd.DateOffset(1)], :]`, over all
devices, inclusive of both endpoints. -/
def windowFilter (msgs : List StMsg) (d : ℤ) : List StMsg :=
  msgs.filter fun m =>
    decide (d ≤ m.msg.datetime) && decide (m.msg.datetime ≤ d + 86400)

/-- The grouping key of `avg_speeds_for_date`: `device_id` and the hour
bucket of the report timestamp. -/
def speedKey (m : StMsg) : String × ℤ := (m.msg.device_id, hourBucket m.msg.datetime)

/-- `GroupBy.mean` of a group of speeds. -/
def mean (l : List ℚ) : ℚ := l.sum / (l.length : ℚ)

/-- The speeds of one `(device_id, hour)` group of `avg_speeds_for_date`. -/
def groupSpeeds (msgs : List StMsg) (d : ℤ) (k : String × ℤ) : List ℚ :=
  (((windowFilter msgs d).filter fun m => decide (speedKey m = k)).map
    fun m => m.msg.spd_over_grnd)

/-- `avg_speeds_for_date`: the date window of `spd_over_grnd` grouped by
`(device_id, hour)` with the mean of each group; groups are listed once,
in order of first appearance. -/
def avg_speeds_for_date (msgs : List StMsg) (d : ℤ) : List ((String × ℤ) × ℚ) :=
  (((windowFilter msgs d).map speedKey).dedup).map
    fun k => (k, mean (groupSpeeds msgs d k))

/-- `GroupBy.max` over a group (`none` models the `NaN` a group with no
non-null values yields). -/
def maxQ : List ℚ → Option ℚ
  | [] => none
  | x :: xs =>
    match maxQ xs with
    | none => some x
    | some y => some (max x y)

/-- `GroupBy.min` over a group. -/
def minQ : List ℚ → Option ℚ
  | [] => none
  | x :: xs =>
    match minQ xs with
    | none => some x
    | some y => some (min x y)

/-- The non-null `wind_spd` values of one hour group of the merged
table (pandas max/min skip `NaN`). -/
def windVals (merged : List (StMsg × Option WObs)) (h : ℤ) : List ℚ :=
  merged.filterMap fun p =>
    if hourBucket p.1.msg.datetime = h then p.2.map (fun o => o.wind_spd) else none

/-- `wind_speed_max_min_for_ship`: merge the device's in-window reports
with the weather table, then per hour bucket take max and min of
`wind_spd`. -/
def wind_speed_max_min_for_ship (msgs : List StMsg) (obs : List WObs) (dev : String) (d : ℤ) :
    List (ℤ × Option ℚ × Option ℚ) :=
  let merged := _merge_raw_messages_weather msgs obs dev d
  ((merged.map fun p => hourBucket p.1.msg.datetime).dedup).map
    fun h => (h, maxQ (windVals merged h), minQ (windVals merged h))

/-- The data series `full_weather_visual_for_ship` renders: one
`(lon, lat, matched observation)` point per merged row, in merge order. -/
def full_weather_visual_for_ship (msgs : List StMsg) (obs : List WObs) (dev : String) (d : ℤ) :
    List (ℚ × ℚ × Option WObs) :=
  (_merge_raw_messages_weather msgs obs dev d).map fun p => (p.1.msg.lon, p.1.msg.lat, p.2)

/-! ### Theorems -/

/-- C1: Join conservation — for every vessel and window, the temporal
merge yields exactly one aligned record per in-window vessel report
(never more, never fewer), regardless of the weather-observation input;
the reports of the output are exactly the filtered reports, in order. -/
theorem join_conservation (msgs : List StMsg) (obs : List WObs) (dev : String) (d : ℤ) :
    (_merge_raw_messages_weather msgs obs dev d).length = (filterWindow msgs dev d).length ∧
      (_merge_raw_messages_weather msgs obs dev d).map Prod.fst = filterWindow msgs dev d := by
  constructor
  · simp [_merge_raw_messages_weather]
  · simp only [_merge_raw_messages_weather, List.map_map]
    have h : (Prod.fst ∘ fun m : StMsg => (m, selectNearest obs m 3600)) = id := rfl
    rw [h, List.map_id]

/-- C7: EmptyIndex — on an empty station table the nearest-station
lookup fails (models the pandas `ValueError`, the spec's `EmptyIndex`),
and hence station assignment of any nonempty report table fails too. -/
theorem empty_index_error (lat long : ℚ) (m : RawMsg) (ms : List RawMsg) :
    find_nearest_station [] lat long = none ∧ assignStations (m :: ms) [] = none := by
  refine ⟨rfl, ?_⟩
  cases h : assignStations ms [] <;>
    simp [assignStations, find_nearest_station, idxminVal, h]

/-- C8: the haversine distance is symmetric in its two coordinate pairs,
and the distance from a coordinate pair to itself is zero. -/
theorem dist_symm_and_self (lat1 long1 lat2 long2 : ℚ) :
    _dist lat1 long1 lat2 long2 = _dist lat2 long2 lat1 long1 ∧
      _dist lat1 long1 lat1 long1 = 0 := by
  have hsin : ∀ a b : ℝ, Real.sin ((a - b) / 2) ^ 2 = Real.sin ((b - a) / 2) ^ 2 := by
    intro a b
    rw [show (a - b) / 2 = -((b - a) / 2) by ring, Real.sin_neg]
    ring
  constructor
  · have hA : haversineA lat1 long1 lat2 long2 = haversineA lat2 long2 lat1 long1 := by
      unfold haversineA
      rw [hsin (rad lat2) (rad lat1), hsin (rad long2) (rad long1)]
      ring
    unfold _dist
    rw [hA]
  · have hA0 : haversineA lat1 long1 lat1 long1 = 0 := by
      unfold haversineA
      simp
    unfold _dist
    rw [hA0]
    simp [Real.sqrt_zero, Real.arcsin_zero]

/-- Latitudes within ±90 degrees have radian measure within ±π/2, so
their cosine is nonnegative. -/
lemma cos_rad_nonneg (x : ℚ) (hx1 : -90 ≤ x) (hx2 : x ≤ 90) : 0 ≤ Real.cos (rad x) := by
  apply Real.cos_nonneg_of_mem_Icc
  have hl : (-90 : ℝ) ≤ (x : ℝ) := by exact_mod_cast hx1
  have hr : (x : ℝ) ≤ 90 := by exact_mod_cast hx2
  have hpi := Real.pi_pos
  constructor
  · unfold rad
    nlinarith [mul_nonneg (by linarith : (0 : ℝ) ≤ (x : ℝ) + 90) hpi.le]
  · unfold rad
    nlinarith [mul_nonneg (by linarith : (0 : ℝ) ≤ 90 - (x : ℝ)) hpi.le]

/-- C9: totality of the distance computation — with latitudes in
[-90, 90] and longitudes in [-180, 180] degrees, the haversine
intermediate `a` lies in [0, 1], `sqrt a` lies in [0, 1] (so `asin`
receives an in-domain argument), and `_dist` is nonnegative. -/
theorem haversine_domain (lat1 long1 lat2 long2 : ℚ)
    (h1 : -90 ≤ lat1) (h2 : lat1 ≤ 90) (h3 : -90 ≤ lat2) (h4 : lat2 ≤ 90)
    (h5 : -180 ≤ long1) (h6 : long1 ≤ 180) (h7 : -180 ≤ long2) (h8 : long2 ≤ 180) :
    0 ≤ haversineA lat1 long1 lat2 long2 ∧ haversineA lat1 long1 lat2 long2 ≤ 1 ∧
      Real.sqrt (haversineA lat1 long1 lat2 long2) ≤ 1 ∧
      0 ≤ _dist lat1 long1 lat2 long2 := by
  have hcx := cos_rad_nonneg lat1 h1 h2
  have hcy := cos_rad_nonneg lat2 h3 h4
  have hP : 0 ≤ Real.cos (rad lat1) * Real.cos (rad lat2) := mul_nonneg hcx hcy
  have ha0 : 0 ≤ haversineA lat1 long1 lat2 long2 := by
    unfold haversineA
    exact add_nonneg (sq_nonneg _) (mul_nonneg hP (sq_nonneg _))
  have ha1 : haversineA lat1 long1 lat2 long2 ≤ 1 := by
    have hs1 : Real.sin ((rad lat2 - rad lat1) / 2) ^ 2 =
        1 / 2 - Real.cos (2 * ((rad lat2 - rad lat1) / 2)) / 2 :=
      Real.sin_sq_eq_half_sub _
    have h2x : 2 * ((rad lat2 - rad lat1) / 2) = rad lat2 - rad lat1 := by ring
    rw [h2x] at hs1
    have hprod : Real.cos (rad lat1) * Real.cos (rad lat2) =
        (Real.cos (rad lat1 - rad lat2) + Real.cos (rad lat1 + rad lat2)) / 2 := by
      have hadd := Real.cos_add (rad lat1) (rad lat2)
      have hsub := Real.cos_sub (rad lat1) (rad lat2)
      linarith
    have hflip : Real.cos (rad lat2 - rad lat1) = Real.cos (rad lat1 - rad lat2) := by
      rw [show rad lat2 - rad lat1 = -(rad lat1 - rad lat2) by ring, Real.cos_neg]
    have hse : Real.sin ((rad long2 - rad long1) / 2) ^ 2 ≤ 1 := Real.sin_sq_le_one _
    have hse0 : 0 ≤ Real.sin ((rad long2 - rad long1) / 2) ^ 2 := sq_nonneg _
    have hc1 := Real.cos_le_one (rad lat1 + rad lat2)
    unfold haversineA
    nlinarith [mul_nonneg hP (by linarith : 0 ≤ 1 - Real.sin ((rad long2 - rad long1) / 2) ^ 2)]
  refine ⟨ha0, ha1, ?_, ?_⟩
  · calc Real.sqrt (haversineA lat1 long1 lat2 long2) ≤ Real.sqrt 1 := Real.sqrt_le_sqrt ha1
    _ = 1 := Real.sqrt_one
  · unfold _dist
    have harc : 0 ≤ Real.arcsin (Real.sqrt (haversineA lat1 long1 lat2 long2)) :=
      Real.arcsin_nonneg.mpr (Real.sqrt_nonneg _)
    nlinarith

/-- Witness for C9 at the concrete point (0°, 0°) / (45°, 90°). -/
theorem haversine_domain_witness :
    0 ≤ haversineA 0 0 45 90 ∧ haversineA 0 0 45 90 ≤ 1 ∧
      Real.sqrt (haversineA 0 0 45 90) ≤ 1 ∧ 0 ≤ _dist 0 0 45 90 :=
  haversine_domain 0 0 45 90 (by norm_num) (by norm_num) (by norm_num) (by norm_num)
    (by norm_num) (by norm_num) (by norm_num) (by norm_num)

/-- `idxminVal` returns `none` exactly on the empty list. -/
lemma idxminVal_eq_none {l : List ℝ} : idxminVal l = none ↔ l = [] := by
  cases l with
  | nil => simp [idxminVal]
  | cons v rest =>
    constructor
    · intro h
      exfalso
      cases hr : idxminVal rest with
      | none => simp [idxminVal, hr] at h
      | some p =>
        obtain ⟨j, bv⟩ := p
        by_cases hc : bv < v <;> simp [idxminVal, hr, hc] at h
    · intro h
      exact absurd h (List.cons_ne_nil _ _)

/-- `idxminVal` computes the first position of the minimum: the returned
value is attained at the returned index, is a lower bound of the list,
and every strictly earlier entry is strictly larger. -/
lemma idxminVal_spec (l : List ℝ) : ∀ (j : ℕ) (v : ℝ), idxminVal l = some (j, v) →
    ∃ hj : j < l.length, l[j] = v ∧ (∀ k (hk : k < l.length), v ≤ l[k]) ∧
      (∀ k (hk : k < l.length), k < j → v < l[k]) := by
  induction l with
  | nil => intro j v h; simp [idxminVal] at h
  | cons x xs ih =>
    intro j v h
    unfold idxminVal at h
    cases hr : idxminVal xs with
    | none =>
      rw [hr] at h
      simp only [Option.some.injEq, Prod.mk.injEq] at h
      obtain ⟨hj, hv⟩ := h
      subst hj; subst hv
      refine ⟨by simp, by simp, ?_, ?_⟩
      · intro k hk
        have hxs : xs = [] := idxminVal_eq_none.mp hr
        subst hxs
        simp at hk
        subst hk
        simp
      · intro k hk hk0
        omega
    | some p =>
      obtain ⟨j', bv⟩ := p
      rw [hr] at h
      obtain ⟨hj', hget, hmin, hfirst⟩ := ih j' bv hr
      by_cases hc : bv < x
      · simp only [hc, if_true, Option.some.injEq, Prod.mk.injEq] at h
        obtain ⟨hj, hv⟩ := h
        subst hj; subst hv
        refine ⟨by simpa using Nat.succ_lt_succ hj', by simpa using hget, ?_, ?_⟩
        · intro k hk
          cases k with
          | zero => simpa using hc.le
          | succ n =>
            have hn : n < xs.length := by simpa using hk
            simpa using hmin n hn
        · intro k hk hkj
          cases k with
          | zero => simpa using hc
          | succ n =>
            have hn : n < xs.length := by simpa using hk
            simpa using hfirst n hn (by omega)
      · simp only [hc, if_false, Option.some.injEq, Prod.mk.injEq] at h
        obtain ⟨hj, hv⟩ := h
        subst hj; subst hv
        refine ⟨by simp, by simp, ?_, ?_⟩
        · intro k hk
          cases k with
          | zero => simp
          | succ n =>
            have hn : n < xs.length := by simpa using hk
            have := hmin n hn
            have hxbv : x ≤ bv := not_lt.mp hc
            simpa using le_trans hxbv this
        · intro k hk hk0
          omega

/-- On a nonempty station table, `find_nearest_station` succeeds and
returns one of its rows. -/
lemma find_nearest_mem (stations : List Station) (lat long : ℚ) (hne : stations ≠ []) :
    ∃ s ∈ stations, find_nearest_station stations lat long = some s := by
  cases hiv : idxminVal (stations.map (stationDist lat long)) with
  | none =>
    exact absurd (by simpa using idxminVal_eq_none.mp hiv) hne
  | some p =>
    obtain ⟨j, v⟩ := p
    obtain ⟨hj, -, -, -⟩ := idxminVal_spec _ j v hiv
    have hjs : j < stations.length := by simpa using hj
    refine ⟨stations[j], List.getElem_mem hjs, ?_⟩
    unfold find_nearest_station
    rw [hiv]
    exact List.getElem?_eq_getElem hjs

/-- C4: nearest-station selection — on a nonempty station table the
returned station minimizes the haversine distance to the query point,
and on an exact distance tie the station appearing first in the table's
iteration order is returned. -/
theorem nearest_station_min_first (stations : List Station) (lat long : ℚ)
    (hne : stations ≠ []) :
    ∃ (i : ℕ) (hi : i < stations.length),
      find_nearest_station stations lat long = some (stations.get ⟨i, hi⟩) ∧
      (∀ j (hj : j < stations.length),
        stationDist lat long (stations.get ⟨i, hi⟩) ≤
          stationDist lat long (stations.get ⟨j, hj⟩)) ∧
      (∀ j (hj : j < stations.length), j < i →
        stationDist lat long (stations.get ⟨i, hi⟩) <
          stationDist lat long (stations.get ⟨j, hj⟩)) := by
  cases hiv : idxminVal (stations.map (stationDist lat long)) with
  | none =>
    exact absurd (by simpa using idxminVal_eq_none.mp hiv) hne
  | some p =>
    obtain ⟨j, v⟩ := p
    obtain ⟨hj, hget, hmin, hfirst⟩ := idxminVal_spec _ j v hiv
    have hjs : j < stations.length := by simpa using hj
    refine ⟨j, hjs, ?_, ?_, ?_⟩
    · unfold find_nearest_station
      rw [hiv]
      simp [List.getElem?_eq_getElem hjs]
    · intro k hk
      have hkl : k < (stations.map (stationDist lat long)).length := by simpa using hk
      have := hmin k hkl
      rw [List.getElem_map] at this
      rw [List.getElem_map] at hget
      simp only [List.get_eq_getElem]
      rw [hget]
      exact this
    · intro k hk hkj
      have hkl : k < (stations.map (stationDist lat long)).length := by simpa using hk
      have := hfirst k hkl hkj
      rw [List.getElem_map] at this
      rw [List.getElem_map] at hget
      simp only [List.get_eq_getElem]
      rw [hget]
      exact this

/-- Witness for C4 on a singleton station table. -/
theorem nearest_station_min_first_witness :
    ∃ (i : ℕ) (hi : i < ([⟨"s0", 10, 20⟩] : List Station).length),
      find_nearest_station [⟨"s0", 10, 20⟩] 1 2 =
        some (([⟨"s0", 10, 20⟩] : List Station).get ⟨i, hi⟩) ∧
      (∀ j (hj : j < ([⟨"s0", 10, 20⟩] : List Station).length),
        stationDist 1 2 (([⟨"s0", 10, 20⟩] : List Station).get ⟨i, hi⟩) ≤
          stationDist 1 2 (([⟨"s0", 10, 20⟩] : List Station).get ⟨j, hj⟩)) ∧
      (∀ j (hj : j < ([⟨"s0", 10, 20⟩] : List Station).length), j < i →
        stationDist 1 2 (([⟨"s0", 10, 20⟩] : List Station).get ⟨i, hi⟩) <
          stationDist 1 2 (([⟨"s0", 10, 20⟩] : List Station).get ⟨j, hj⟩)) :=
  nearest_station_min_first [⟨"s0", 10, 20⟩] 1 2 (List.cons_ne_nil _ _)

/-- C10: station assignment over a nonempty station table succeeds and
every attached `(s_lat, s_lon)` pair is the coordinate pair of some row
of the station table. -/
theorem assign_station_membership (stations : List Station) (hne : stations ≠ [])
    (msgs : List RawMsg) :
    ∃ out, assignStations msgs stations = some out ∧
      ∀ r ∈ out, ∃ s ∈ stations, r.s_lat = s.s_lat ∧ r.s_lon = s.s_lon := by
  induction msgs with
  | nil => exact ⟨[], rfl, by simp⟩
  | cons m ms ih =>
    obtain ⟨out, hout, hmem⟩ := ih
    obtain ⟨s, hs, hfind⟩ := find_nearest_mem stations m.lat m.lon hne
    refine ⟨⟨m, s.s_lat, s.s_lon⟩ :: out, ?_, ?_⟩
    · unfold assignStations
      rw [hfind, hout]
    · intro r hr
      rcases List.mem_cons.mp hr with hr | hr
      subst hr
      · exact ⟨s, hs, rfl, rfl⟩
      · exact hmem r hr

/-- Witness for C10 with one station and one report. -/
theorem assign_station_membership_witness :
    ∃ out, assignStations [⟨"v1", 0, 1, 2, 3⟩] [⟨"s0", 10, 20⟩] = some out ∧
      ∀ r ∈ out, ∃ s ∈ ([⟨"s0", 10, 20⟩] : List Station),
        r.s_lat = s.s_lat ∧ r.s_lon = s.s_lon :=
  assign_station_membership [⟨"s0", 10, 20⟩] (List.cons_ne_nil _ _) [⟨"v1", 0, 1, 2, 3⟩]

/-- The last element of a list is a member. -/
lemma mem_of_getLast_eq {α : Type} : ∀ {l : List α} {b : α}, l.getLast? = some b → b ∈ l := by
  intro l
  induction l with
  | nil => intro b h; simp at h
  | cons x xs ih =>
    intro b h
    cases xs with
    | nil =>
      rw [List.getLast?_singleton] at h
      obtain rfl := Option.some.inj h
      exact List.mem_singleton_self _
    | cons y ys =>
      rw [List.getLast?_cons_cons] at h
      exact List.mem_cons_of_mem x (ih h)

/-- The head of a list is a member. -/
lemma mem_of_head_eq {α : Type} {l : List α} {b : α} (h : l.head? = some b) : b ∈ l := by
  cases l with
  | nil => simp at h
  | cons x xs =>
    obtain rfl := Option.some.inj h
    exact List.mem_cons_self _ _

/-- In a `Pairwise R`-sorted nonempty list, the last element exists and
every member relates to it (or is it). -/
lemma getLast_spec {α : Type} {R : α → α → Prop} :
    ∀ (l : List α), l.Pairwise R → ∀ a, a ∈ l →
      ∃ b, l.getLast? = some b ∧ b ∈ l ∧ (b = a ∨ R a b) := by
  intro l
  induction l with
  | nil => intro _ a ha; exact absurd ha (List.not_mem_nil a)
  | cons x xs ih =>
    intro hp a ha
    cases xs with
    | nil =>
      obtain rfl := List.mem_singleton.mp ha
      exact ⟨a, List.getLast?_singleton a, List.mem_singleton_self a, Or.inl rfl⟩
    | cons y ys =>
      have hp' : (y :: ys).Pairwise R := hp.of_cons
      have hx : ∀ z ∈ y :: ys, R x z := (List.pairwise_cons.mp hp).1
      rcases List.mem_cons.mp ha with rfl | ha'
      · obtain ⟨b, hb, hbmem, -⟩ := ih hp' y (List.mem_cons_self y ys)
        refine ⟨b, ?_, List.mem_cons_of_mem a hbmem, Or.inr (hx b hbmem)⟩
        rw [List.getLast?_cons_cons]
        exact hb
      · obtain ⟨b, hb, hbmem, hrel⟩ := ih hp' a ha'
        refine ⟨b, ?_, List.mem_cons_of_mem x hbmem, hrel⟩
        rw [List.getLast?_cons_cons]
        exact hb

/-- In a `Pairwise R`-sorted nonempty list, the head exists and relates
to every member (or is it). -/
lemma head_spec {α : Type} {R : α → α → Prop} (l : List α) (hp : l.Pairwise R) (a : α)
    (ha : a ∈ l) : ∃ b, l.head? = some b ∧ b ∈ l ∧ (b = a ∨ R b a) := by
  cases l with
  | nil => exact absurd ha (List.not_mem_nil a)
  | cons x xs =>
    refine ⟨x, rfl, List.mem_cons_self x xs, ?_⟩
    rcases List.mem_cons.mp ha with rfl | ha'
    · exact Or.inl rfl
    · exact Or.inr ((List.pairwise_cons.mp hp).1 a ha')

/-- What a successful tolerance check means. -/
lemma tolOk_some {t tol : ℤ} {x : Option WObs} {o : WObs} (h : tolOk t tol x = some o) :
    x = some o ∧ |o.timestamp_utc - t| ≤ tol := by
  cases x with
  | none => simp [tolOk] at h
  | some o' =>
    simp only [tolOk] at h
    split_ifs at h with hc
    obtain rfl := Option.some.inj h
    exact ⟨rfl, hc⟩

/-- A candidate within tolerance survives the check. -/
lemma tolOk_of (t tol : ℤ) (o : WObs) (h : |o.timestamp_utc - t| ≤ tol) :
    tolOk t tol (some o) = some o := by simp [tolOk, h]

/-- A candidate beyond tolerance is discarded. -/
lemma tolOk_not (t tol : ℤ) (o : WObs) (h : ¬|o.timestamp_utc - t| ≤ tol) :
    tolOk t tol (some o) = none := by simp [tolOk, h]

/-- If the backward candidate survives the tolerance check, the merge
matches some observation. -/
lemma selectNearest_isSome_of_backward {obs : List WObs} {r : StMsg} {tol : ℤ} {b : WObs}
    (hb : tolOk r.msg.datetime tol (backward obs r) = some b) :
    (selectNearest obs r tol).isSome = true := by
  cases hf : tolOk r.msg.datetime tol (forward obs r) with
  | none => simp [selectNearest, hb, hf]
  | some f =>
    by_cases hc : r.msg.datetime - b.timestamp_utc ≤ f.timestamp_utc - r.msg.datetime <;>
      simp [selectNearest, hb, hf, hc]

/-- If the forward candidate survives the tolerance check, the merge
matches some observation. -/
lemma selectNearest_isSome_of_forward {obs : List WObs} {r : StMsg} {tol : ℤ} {f : WObs}
    (hf : tolOk r.msg.datetime tol (forward obs r) = some f) :
    (selectNearest obs r tol).isSome = true := by
  cases hb : tolOk r.msg.datetime tol (backward obs r) with
  | none => simp [selectNearest, hb, hf]
  | some b =>
    by_cases hc : r.msg.datetime - b.timestamp_utc ≤ f.timestamp_utc - r.msg.datetime <;>
      simp [selectNearest, hb, hf, hc]

/-- If both candidates fail the tolerance check, the merge leaves the
weather fields null. -/
lemma selectNearest_eq_none {obs : List WObs} {r : StMsg} {tol : ℤ}
    (hb : tolOk r.msg.datetime tol (backward obs r) = none)
    (hf : tolOk r.msg.datetime tol (forward obs r) = none) :
    selectNearest obs r tol = none := by
  simp [selectNearest, hb, hf]

/-- Whatever the merge matches is within tolerance. -/
lemma selectNearest_within {obs : List WObs} {r : StMsg} {tol : ℤ} {o : WObs}
    (h : selectNearest obs r tol = some o) :
    |o.timestamp_utc - r.msg.datetime| ≤ tol := by
  cases hb : tolOk r.msg.datetime tol (backward obs r) with
  | none =>
    cases hf : tolOk r.msg.datetime tol (forward obs r) with
    | none =>
      rw [selectNearest_eq_none hb hf] at h
      simp at h
    | some f =>
      have hsel : selectNearest obs r tol = some f := by simp [selectNearest, hb, hf]
      rw [hsel] at h
      obtain rfl := Option.some.inj h
      exact (tolOk_some hf).2
  | some b =>
    cases hf : tolOk r.msg.datetime tol (forward obs r) with
    | none =>
      have hsel : selectNearest obs r tol = some b := by simp [selectNearest, hb, hf]
      rw [hsel] at h
      obtain rfl := Option.some.inj h
      exact (tolOk_some hb).2
    | some f =>
      by_cases hc : r.msg.datetime - b.timestamp_utc ≤ f.timestamp_utc - r.msg.datetime
      · have hsel : selectNearest obs r tol = some b := by simp [selectNearest, hb, hf, hc]
        rw [hsel] at h
        obtain rfl := Option.some.inj h
        exact (tolOk_some hb).2
      · have hsel : selectNearest obs r tol = some f := by simp [selectNearest, hb, hf, hc]
        rw [hsel] at h
        obtain rfl := Option.some.inj h
        exact (tolOk_some hf).2

/-- What a produced backward candidate satisfies. -/
lemma backward_mem {obs : List WObs} {r : StMsg} {b : WObs} (h : backward obs r = some b) :
    b ∈ obs ∧ matchKey r b = true ∧ b.timestamp_utc ≤ r.msg.datetime := by
  have hmem := mem_of_getLast_eq h
  obtain ⟨h1, h2⟩ := List.mem_filter.mp hmem
  rw [Bool.and_eq_true] at h2
  exact ⟨h1, h2.1, by simpa using h2.2⟩

/-- What a produced forward candidate satisfies. -/
lemma forward_mem {obs : List WObs} {r : StMsg} {f : WObs} (h : forward obs r = some f) :
    f ∈ obs ∧ matchKey r f = true ∧ r.msg.datetime ≤ f.timestamp_utc := by
  have hmem := mem_of_head_eq h
  obtain ⟨h1, h2⟩ := List.mem_filter.mp hmem
  rw [Bool.and_eq_true] at h2
  exact ⟨h1, h2.1, by simpa using h2.2⟩

/-- A matching observation at or before the report guarantees a backward
candidate at least as close (the last matching observation before the
report, by sortedness). -/
lemma backward_close {obs : List WObs} {r : StMsg} {o : WObs}
    (hs : obs.Pairwise fun a b => a.timestamp_utc ≤ b.timestamp_utc)
    (ho : o ∈ obs) (hm : matchKey r o = true) (hle : o.timestamp_utc ≤ r.msg.datetime) :
    ∃ b, backward obs r = some b ∧ b ∈ obs ∧ matchKey r b = true ∧
      b.timestamp_utc ≤ r.msg.datetime ∧ o.timestamp_utc ≤ b.timestamp_utc := by
  have hofl : o ∈ obs.filter fun o => matchKey r o && decide (o.timestamp_utc ≤ r.msg.datetime) := by
    rw [List.mem_filter]
    exact ⟨ho, by simp [hm, hle]⟩
  have hps : (obs.filter fun o => matchKey r o &&
      decide (o.timestamp_utc ≤ r.msg.datetime)).Pairwise
        (fun a b => a.timestamp_utc ≤ b.timestamp_utc) :=
    List.Pairwise.sublist (List.filter_sublist _) hs
  obtain ⟨b, hbl, hbmem, hrel⟩ := getLast_spec _ hps o hofl
  obtain ⟨hb1, hb2⟩ := List.mem_filter.mp hbmem
  rw [Bool.and_eq_true] at hb2
  refine ⟨b, hbl, hb1, hb2.1, by simpa using hb2.2, ?_⟩
  rcases hrel with rfl | hrel
  · exact le_refl _
  · exact hrel

/-- A matching observation at or after the report guarantees a forward
candidate at least as close (the first matching observation after the
report, by sortedness). -/
lemma forward_close {obs : List WObs} {r : StMsg} {o : WObs}
    (hs : obs.Pairwise fun a b => a.timestamp_utc ≤ b.timestamp_utc)
    (ho : o ∈ obs) (hm : matchKey r o = true) (hge : r.msg.datetime ≤ o.timestamp_utc) :
    ∃ f, forward obs r = some f ∧ f ∈ obs ∧ matchKey r f = true ∧
      r.msg.datetime ≤ f.timestamp_utc ∧ f.timestamp_utc ≤ o.timestamp_utc := by
  have hofl : o ∈ obs.filter fun o => matchKey r o && decide (r.msg.datetime ≤ o.timestamp_utc) := by
    rw [List.mem_filter]
    exact ⟨ho, by simp [hm, hge]⟩
  have hps : (obs.filter fun o => matchKey r o &&
      decide (r.msg.datetime ≤ o.timestamp_utc)).Pairwise
        (fun a b => a.timestamp_utc ≤ b.timestamp_utc) :=
    List.Pairwise.sublist (List.filter_sublist _) hs
  obtain ⟨f, hfl, hfmem, hrel⟩ := head_spec _ hps o hofl
  obtain ⟨hf1, hf2⟩ := List.mem_filter.mp hfmem
  rw [Bool.and_eq_true] at hf2
  refine ⟨f, hfl, hf1, hf2.1, by simpa using hf2.2, ?_⟩
  rcases hrel with rfl | hrel
  · exact le_refl _
  · exact hrel

/-- C2: tolerance boundary — over a timestamp-sorted observation table,
a station-matching observation exactly 1 hour (3600 s) from the report
is matched (the record gets weather data); any matched observation is
within 1 hour; and when every station-matching observation is strictly
beyond 1 hour (e.g. 1 hour + 1 second), the record's weather fields are
null. -/
theorem tolerance_boundary (obs : List WObs) (r : StMsg)
    (hs : obs.Pairwise fun a b => a.timestamp_utc ≤ b.timestamp_utc) :
    ((∃ o ∈ obs, matchKey r o = true ∧ |o.timestamp_utc - r.msg.datetime| = 3600) →
        (selectNearest obs r 3600).isSome = true) ∧
      (∀ o, selectNearest obs r 3600 = some o →
        |o.timestamp_utc - r.msg.datetime| ≤ 3600) ∧
      ((∀ o ∈ obs, matchKey r o = true → 3600 < |o.timestamp_utc - r.msg.datetime|) →
        selectNearest obs r 3600 = none) := by
  refine ⟨?_, ?_, ?_⟩
  · rintro ⟨o, ho, hm, habs⟩
    rcases le_total o.timestamp_utc r.msg.datetime with hle | hge
    · obtain ⟨b, hb, -, -, hble, hobe⟩ := backward_close hs ho hm hle
      have habs' : r.msg.datetime - o.timestamp_utc = 3600 := by
        rw [abs_sub_comm, abs_of_nonneg (by omega)] at habs
        exact habs
      have hbtol : |b.timestamp_utc - r.msg.datetime| ≤ 3600 := by
        rw [abs_sub_comm, abs_of_nonneg (by omega)]
        omega
      exact selectNearest_isSome_of_backward (by rw [hb]; exact tolOk_of _ _ _ hbtol)
    · obtain ⟨f, hf, -, -, hfge, hfle⟩ := forward_close hs ho hm hge
      have habs' : o.timestamp_utc - r.msg.datetime = 3600 := by
        rw [abs_of_nonneg (by omega)] at habs
        exact habs
      have hftol : |f.timestamp_utc - r.msg.datetime| ≤ 3600 := by
        rw [abs_of_nonneg (by omega)]
        omega
      exact selectNearest_isSome_of_forward (by rw [hf]; exact tolOk_of _ _ _ hftol)
  · intro o h
    exact selectNearest_within h
  · intro hall
    apply selectNearest_eq_none
    · cases hb : backward obs r with
      | none => rfl
      | some b =>
        obtain ⟨hbmem, hbm, -⟩ := backward_mem hb
        exact tolOk_not _ _ _ (not_le.mpr (hall b hbmem hbm))
    · cases hf : forward obs r with
      | none => rfl
      | some f =>
        obtain ⟨hfmem, hfm, -⟩ := forward_mem hf
        exact tolOk_not _ _ _ (not_le.mpr (hall f hfmem hfm))

/-- Witness for C2: one observation exactly 3600 s before the report, at
the report's station key, is matched. -/
theorem tolerance_boundary_witness :
    (selectNearest [⟨0, 1, 2, 5, 20⟩] ⟨⟨"v", 3600, 0, 0, 9⟩, 1, 2⟩ 3600).isSome = true :=
  (tolerance_boundary [⟨0, 1, 2, 5, 20⟩] ⟨⟨"v", 3600, 0, 0, 9⟩, 1, 2⟩ (by decide)).1
    ⟨⟨0, 1, 2, 5, 20⟩, by decide⟩

/-- C3: time tie-break — over a timestamp-sorted observation table, if
two station-matching observations lie at exactly equal time distance on
either side of the report (both within tolerance) and no station-
matching observation is closer, the merge selects an observation with
the earlier of the two tied timestamps. -/
theorem time_tie_break (obs : List WObs) (r : StMsg) (o1 o2 : WObs)
    (hs : obs.Pairwise fun a b => a.timestamp_utc ≤ b.timestamp_utc)
    (h1 : o1 ∈ obs) (h2 : o2 ∈ obs)
    (hm1 : matchKey r o1 = true) (hm2 : matchKey r o2 = true)
    (hlt : o1.timestamp_utc < o2.timestamp_utc)
    (heq : r.msg.datetime - o1.timestamp_utc = o2.timestamp_utc - r.msg.datetime)
    (htol : o2.timestamp_utc - r.msg.datetime ≤ 3600)
    (hmin : ∀ o ∈ obs, matchKey r o = true →
      r.msg.datetime - o1.timestamp_utc ≤ |o.timestamp_utc - r.msg.datetime|) :
    ∃ sel, selectNearest obs r 3600 = some sel ∧
      sel.timestamp_utc = o1.timestamp_utc := by
  have hd0 : o1.timestamp_utc ≤ r.msg.datetime := by omega
  have hd2 : r.msg.datetime ≤ o2.timestamp_utc := by omega
  obtain ⟨b, hb, hbmem, hbm, hble, hobe⟩ := backward_close hs h1 hm1 hd0
  have hbmin := hmin b hbmem hbm
  rw [abs_sub_comm, abs_of_nonneg (by omega)] at hbmin
  have hbts : b.timestamp_utc = o1.timestamp_utc := by omega
  obtain ⟨f, hf, hfmem, hfm, hfge, hfle⟩ := forward_close hs h2 hm2 hd2
  have hfmin := hmin f hfmem hfm
  rw [abs_of_nonneg (by omega)] at hfmin
  have hbtol : tolOk r.msg.datetime 3600 (backward obs r) = some b := by
    rw [hb]
    exact tolOk_of _ _ _ (by rw [abs_sub_comm, abs_of_nonneg (by omega)]; omega)
  have hftol : tolOk r.msg.datetime 3600 (forward obs r) = some f := by
    rw [hf]
    exact tolOk_of _ _ _ (by rw [abs_of_nonneg (by omega)]; omega)
  refine ⟨b, ?_, hbts⟩
  have hcond : r.msg.datetime - b.timestamp_utc ≤ f.timestamp_utc - r.msg.datetime := by omega
  simp [selectNearest, hbtol, hftol, hcond]

/-- Witness for C3: observations 3600 s before and 3600 s after the
report, same station key; the earlier one (timestamp 3600) is selected. -/
theorem time_tie_break_witness :
    ∃ sel, selectNearest [⟨3600, 1, 2, 5, 20⟩, ⟨10800, 1, 2, 7, 21⟩]
        ⟨⟨"v", 7200, 0, 0, 9⟩, 1, 2⟩ 3600 = some sel ∧
      sel.timestamp_utc = 3600 :=
  time_tie_break [⟨3600, 1, 2, 5, 20⟩, ⟨10800, 1, 2, 7, 21⟩] ⟨⟨"v", 7200, 0, 0, 9⟩, 1, 2⟩
    ⟨3600, 1, 2, 5, 20⟩ ⟨10800, 1, 2, 7, 21⟩ (by decide) (by decide) (by decide)
    (by decide) (by decide) (by decide) (by decide) (by decide) (by decide)

/-- C5 (evaluation at the failing input): a report at exactly
`date + 1 day` (timestamp 86400 for date 0) is INCLUDED by the code's
window filter (pandas `.loc` label slicing is inclusive of both
endpoints), producing a group keyed by the hour bucket `date + 24h` —
the claim's half-open window `[date, date+1day)` would exclude it and
yield an empty result. -/
theorem avg_speeds_includes_right_endpoint :
    avg_speeds_for_date [⟨⟨"V1", 86400, 0, 0, 12⟩, 1, 2⟩] 0 = [(("V1", 86400), 12)] := by
  have h1 : avg_speeds_for_date [⟨⟨"V1", 86400, 0, 0, 12⟩, 1, 2⟩] 0 =
      [(("V1", 86400), mean [12])] := rfl
  rw [h1]
  norm_num [mean]

/-- C6 counterexample: on inputs whose date/window filtering yields zero
rows, the four KPI queries return ordinary empty results — a vessel
count of 0 and empty tables/series — instead of failing with any
EmptyWindow error (no such error path exists in the code). -/
theorem empty_window_no_error :
    num_ships_in_data ([] : List StMsg) = 0 ∧
      avg_speeds_for_date ([] : List StMsg) 0 = [] ∧
      wind_speed_max_min_for_ship [⟨⟨"v", 500000, 0, 0, 9⟩, 1, 2⟩] [] "v" 0 = [] ∧
      full_weather_visual_for_ship [⟨⟨"v", 500000, 0, 0, 9⟩, 1, 2⟩] [] "v" 0 = [] := by
  refine ⟨rfl, rfl, by decide, by decide⟩

/-- C6 amended: whenever its date/window filtering yields zero rows,
each KPI query returns an empty structure rather than failing — the
vessel count of a zero-row table is 0, the hourly-average-speed result
is empty when the date window is empty, and the wind-extremes and
route-series results are empty when the device/date filter is empty. -/
theorem empty_window_policy (msgs : List StMsg) (obs : List WObs) (dev : String) (d : ℤ) :
    num_ships_in_data ([] : List StMsg) = 0 ∧
      (windowFilter msgs d = [] → avg_speeds_for_date msgs d = []) ∧
      (filterWindow msgs dev d = [] →
        wind_speed_max_min_for_ship msgs obs dev d = [] ∧
          full_weather_visual_for_ship msgs obs dev d = []) := by
  refine ⟨rfl, ?_, ?_⟩
  · intro h
    unfold avg_speeds_for_date
    rw [h]
    rfl
  · intro h
    unfold wind_speed_max_min_for_ship full_weather_visual_for_ship _merge_raw_messages_weather
    rw [h]
    exact ⟨rfl, rfl⟩

/-- Witness for C6 (amended): a report table whose only report lies
outside the queried day yields empty KPI results. -/
theorem empty_window_policy_witness :
    avg_speeds_for_date [⟨⟨"v", 500000, 0, 0, 9⟩, 1, 2⟩] 0 = [] ∧
      wind_speed_max_min_for_ship [⟨⟨"v", 500000, 0, 0, 9⟩, 1, 2⟩] [] "v" 0 = [] ∧
      full_weather_visual_for_ship [⟨⟨"v", 500000, 0, 0, 9⟩, 1, 2⟩] [] "v" 0 = [] :=
  ⟨(empty_window_policy [⟨⟨"v", 500000, 0, 0, 9⟩, 1, 2⟩] [] "v" 0).2.1 (by decide),
    ((empty_window_policy [⟨⟨"v", 500000, 0, 0, 9⟩, 1, 2⟩] [] "v" 0).2.2 (by decide)).1,
    ((empty_window_policy [⟨⟨"v", 500000, 0, 0, 9⟩, 1, 2⟩] [] "v" 0).2.2 (by decide)).2⟩

end Shippy
